import Mathlib

/-!
ovhcli: cart item details and cloud project / image lookup.

A shallow embedding of

* `getDetailledItemList` (ovhcli/order/cart/item.go), the fan-out / fan-in helper
  that fetches the details of every cart item in its own goroutine and collects
  the results over two unbuffered channels, and
* `CloudProjectsList`, `CloudProjectInfoByID`, `CloudProjectInfoByName` and
  `CloudProjectImagesSearch` (cloud.go).

Go strings are modelled by Lean strings (only equality and `strings.Contains`
are used on them).  The HTTP client is an external collaborator: every call to
it is an argument of the embedding, a function from the request to its answer.
-/

namespace Ovhcli

/-! ## Order cart -/

namespace Cart

/-- The cart item of package `ovh`.  Only its `ItemID` is read by the code
embedded here; the remaining fields are kept together in `fields`. -/
structure OrderCartItem (ρ : Type) where
  ItemID : Int
  fields : ρ
deriving DecidableEq, Repr

/-- The channel send on which a worker goroutine ends: `itemsChan <- *i` after a
successful fetch, `errChan <- err` after a failed one. -/
inductive Send (ρ ε : Type) where
  | itemsChan (item : OrderCartItem ρ)
  | errChan (err : ε)
deriving DecidableEq, Repr

/-- A started worker goroutine: the item id it passes to `OrderCartItemInfo` and
the send it then blocks on until the collecting loop receives it. -/
structure Worker (ρ ε : Type) where
  call : Int
  send : Send ρ ε
deriving DecidableEq, Repr

/-- What a call of `common.Check` does to the calling goroutine: it comes back,
or the command ends inside it. -/
inductive Control where
  | resume
  | exit
deriving DecidableEq, Repr

/-- Modelled from the spec: `common.Check` (package ovhcli/common is not among the
sources).  The spec says of a failure received by the collecting loop that "the
function's documented behavior is to report that failure to the caller" "on the
first failure observed"; every command in the sources uses the value computed
just before `common.Check(err)` right after it.  So a nil error comes back and a
non-nil error ends the command with that error. -/
def Check {ε : Type} (e : Option ε) : Control :=
  match e with
  | none => Control.resume
  | some _ => Control.exit

/-- The state of the collecting loop of `getDetailledItemList`: the counter `i`,
the slice `itemsComplete`, and the workers whose send has not been received. -/
structure LoopState (ρ ε : Type) where
  i : Nat
  itemsComplete : List (OrderCartItem ρ)
  unreceived : List (Worker ρ ε)
deriving DecidableEq, Repr

/-- How a call of `getDetailledItemList` ends: it returns `itemsComplete`; or
`common.Check` ends the command on the error just received, the loop being in
state `s` (the received error already taken off `unreceived`); or the `select`
waits with no worker left to send. -/
inductive Result (ρ ε : Type) where
  | returned (itemsComplete : List (OrderCartItem ρ))
  | failed (err : ε) (s : LoopState ρ ε)
  | stuck (s : LoopState ρ ε)
deriving DecidableEq, Repr

/-- The body of the goroutine started for `item` (item.go lines 128-135). -/
def worker {ρ ε : Type} (OrderCartItemInfo : String → Int → Except ε (OrderCartItem ρ))
    (cartID : String) (item : OrderCartItem ρ) : Worker ρ ε :=
  match OrderCartItemInfo cartID item.ItemID with
  | Except.error err => { call := item.ItemID, send := Send.errChan err }
  | Except.ok i => { call := item.ItemID, send := Send.itemsChan i }

/-- The first loop of `getDetailledItemList` (lines 127-136): one goroutine per
item, in slice order. -/
def startWorkers {ρ ε : Type} (OrderCartItemInfo : String → Int → Except ε (OrderCartItem ρ))
    (cartID : String) (items : List (OrderCartItem ρ)) : List (Worker ρ ε) :=
  items.map (worker OrderCartItemInfo cartID)

/-- The collecting loop (lines 140-147), `remaining` being `len(items) - i`.
Both channels are unbuffered, so each iteration receives the send of one worker
that has not been received yet; which one is the scheduler's choice, given here
by `select`: iteration `i` takes the worker at position
`select i % (number of unreceived workers)`. -/
def collect {ρ ε : Type} (check : Option ε → Control) (select : Nat → Nat) :
    Nat → LoopState ρ ε → Result ρ ε
  | 0, s => Result.returned s.itemsComplete
  | remaining + 1, s =>
    match s.unreceived[select s.i % s.unreceived.length]? with
    | none => Result.stuck s
    | some w =>
      let rest := s.unreceived.eraseIdx (select s.i % s.unreceived.length)
      match w.send with
      | Send.itemsChan item =>
        collect check select remaining
          { i := s.i + 1, itemsComplete := s.itemsComplete ++ [item], unreceived := rest }
      | Send.errChan err =>
        match check (some err) with
        | Control.resume =>
          collect check select remaining
            { i := s.i + 1, itemsComplete := s.itemsComplete, unreceived := rest }
        | Control.exit =>
          Result.failed err { i := s.i, itemsComplete := s.itemsComplete, unreceived := rest }

/-- The function `getDetailledItemList` (item.go lines 124-150). -/
def getDetailledItemList {ρ ε : Type} (check : Option ε → Control)
    (OrderCartItemInfo : String → Int → Except ε (OrderCartItem ρ)) (cartID : String)
    (select : Nat → Nat) (items : List (OrderCartItem ρ)) : Result ρ ε :=
  collect check select items.length
    { i := 0, itemsComplete := [], unreceived := startWorkers OrderCartItemInfo cartID items }

/-- The order in which the sends of `unreceived` reach the loop under `select`
when the loop runs `remaining` iterations from counter `i`. -/
def arrival {ρ ε : Type} (select : Nat → Nat) :
    Nat → Nat → List (Worker ρ ε) → List (Worker ρ ε)
  | 0, _, _ => []
  | remaining + 1, i, unreceived =>
    match unreceived[select i % unreceived.length]? with
    | none => []
    | some w =>
      w :: arrival select remaining (i + 1) (unreceived.eraseIdx (select i % unreceived.length))

/-- The item carried by a send on `itemsChan`. -/
def Send.item? {ρ ε : Type} : Send ρ ε → Option (OrderCartItem ρ)
  | Send.itemsChan item => some item
  | Send.errChan _ => none

/-- The error carried by a send on `errChan`. -/
def Send.err? {ρ ε : Type} : Send ρ ε → Option ε
  | Send.itemsChan _ => none
  | Send.errChan err => some err

/-- The error on which the command ended, if it ended on one. -/
def Result.failure? {ρ ε : Type} : Result ρ ε → Option ε
  | Result.returned _ => none
  | Result.failed err _ => some err
  | Result.stuck _ => none

/-- How the command `listItems` ends: it prints `items`; or `common.Check` ends it
on `err`; or the collecting loop waits for ever. -/
inductive CmdResult (ρ ε : Type) where
  | output (items : List (OrderCartItem ρ))
  | failed (err : Option ε)
  | stuck
deriving DecidableEq, Repr

/-- The statement `common.Check(err)` followed by the rest of the command. -/
def checkThen {ρ ε : Type} (err : Option ε) (next : CmdResult ρ ε) : CmdResult ρ ε :=
  match Check err with
  | Control.exit => CmdResult.failed err
  | Control.resume => next

/-- The `Run` function of `CmdCartListItems` (item.go lines 38-50).  `NewClient`
is the error of `ovh.NewClient()`, `OrderCartItemList` the pair (items, error)
the client answers, `itemsWithDetails` the command-line flag. -/
def CmdCartListItems {ρ ε : Type} (NewClient : Option ε)
    (OrderCartItemList : String → List (OrderCartItem ρ) × Option ε)
    (OrderCartItemInfo : String → Int → Except ε (OrderCartItem ρ)) (cartID : String)
    (itemsWithDetails : Bool) (select : Nat → Nat) : CmdResult ρ ε :=
  checkThen NewClient <|
    checkThen (OrderCartItemList cartID).2 <|
      if itemsWithDetails then
        match getDetailledItemList Check OrderCartItemInfo cartID select
            (OrderCartItemList cartID).1 with
        | Result.returned items => CmdResult.output items
        | Result.failed err _ => CmdResult.failed (some err)
        | Result.stuck _ => CmdResult.stuck
      else
        CmdResult.output (OrderCartItemList cartID).1

/-- A cart item as listed: its id, details not fetched yet. -/
def ref (id : Int) : OrderCartItem String := { ItemID := id, fields := "" }

/-- The fetched details of the cart item `id`. -/
def detail (id : Int) : OrderCartItem String := { ItemID := id, fields := "details" }

/-- Every fetch succeeds. -/
def infoAll (_ : String) (id : Int) : Except String (OrderCartItem String) :=
  Except.ok (detail id)

/-- Every fetch succeeds but the one of item `bad`, which fails with "not found". -/
def infoBut (bad : Int) (_ : String) (id : Int) : Except String (OrderCartItem String) :=
  if id = bad then Except.error "not found" else Except.ok (detail id)

/-- The fetches of items 1 and 3 fail, each with its own error; the others succeed. -/
def infoAC (_ : String) (id : Int) : Except String (OrderCartItem String) :=
  if id = 1 then Except.error "A failed"
  else if id = 3 then Except.error "C failed"
  else Except.ok (detail id)

/-- The scheduler under which the worker started first is always received first. -/
def inOrder (_ : Nat) : Nat := 0

end Cart

/-! ## Cloud projects and images -/

/-- The function `strings.Contains` of the Go library: `substr` occurs in `s` as a
run of consecutive characters (for valid UTF-8 the same as a run of bytes). -/
def strings.Contains (s substr : String) : Bool :=
  decide (substr.data <:+: s.data)

namespace Cloud

/-- The constant `CustomerInterface` (cloud.go line 14). -/
def CustomerInterface : String := "https://www.ovh.com/manager/cloud/index.html"

/-- The struct `Project` (cloud.go lines 18-25). -/
structure Project where
  Name : String
  ID : String
  Unleash : Bool
  CreationDate : String
  OrderID : Int
  Status : String
deriving DecidableEq, Repr

/-- The struct `Image` (cloud.go lines 28-40).  `Size` is a float32 the code only
copies; it is kept as its 32-bit pattern. -/
structure Image where
  Region : String
  Name : String
  ID : String
  OS : String
  CreationDate : String
  Status : String
  MinDisk : Int
  Visibility : String
  Size : Nat
  MinRAM : Int
  User : String
deriving DecidableEq, Repr

/-- A non-nil Go `error` as met in cloud.go: one handed back by the OVH client, or
one built by `fmt.Errorf`. -/
inductive GoError (ε : Type) where
  | client (e : ε)
  | errorf (msg : String)
deriving DecidableEq, Repr

/-- What the functions below call outside cloud.go: `url.QueryEscape`, and the
`Get` of the OVH client, which for a path gives what it decodes into the variable
passed and the error it returns (`none` for nil). -/
structure Client (ε : Type) where
  QueryEscape : String → String
  getIDs : String → List String × Option ε
  getProject : String → Option Project × Option ε
  getImages : String → List Image × Option ε

/-- How a call returning `(*Project, error)` ends. -/
inductive Outcome (ε : Type) where
  | returned (project : Option Project) (err : Option (GoError ε))
  | nilDereference
deriving DecidableEq, Repr

/-- A finished call of `CloudProjectInfoByName`: how it ended, and the project ids
it passed to `CloudProjectInfoByID`, in order. -/
structure Run (ε : Type) where
  outcome : Outcome ε
  detailCalls : List String
deriving DecidableEq, Repr

/-- The value `Project{ID: id}` (cloud.go line 153): every other field is zero. -/
def listed (id : String) : Project :=
  { Name := "", ID := id, Unleash := false, CreationDate := "", OrderID := 0, Status := "" }

/-- The function `CloudProjectsList` (cloud.go lines 145-156). -/
def CloudProjectsList {ε : Type} (c : Client ε) : Except (GoError ε) (List Project) :=
  match c.getIDs "/cloud/project" with
  | (_, some e) => Except.error (GoError.client e)
  | (ids, none) => Except.ok (ids.foldl (fun projects id => projects ++ [listed id]) [])

/-- The function `CloudProjectInfoByID` (cloud.go lines 159-165). -/
def CloudProjectInfoByID {ε : Type} (c : Client ε) (projectID : String) :
    Option Project × Option (GoError ε) :=
  let path := "/cloud/project/" ++ c.QueryEscape projectID
  ((c.getProject path).1, (c.getProject path).2.map GoError.client)

/-- The first loop of `CloudProjectInfoByName` (lines 176-180): the project on
which it returns, if it does. -/
def idLoop (projectName : String) : List Project → Option Project
  | [] => none
  | p :: projects => if p.ID = projectName then some p else idLoop projectName projects

/-- The error built at line 195. -/
def doesNotExist {ε : Type} (projectName : String) : GoError ε :=
  GoError.errorf ("Project '" ++ projectName ++
    "' does not exist on OVH cloud. To create or rename a project, please visit " ++
    CustomerInterface)

/-- The second loop of `CloudProjectInfoByName` and the final return (lines
183-195); `calls` are the detail calls made so far. -/
def nameLoop {ε : Type} (c : Client ε) (projectName : String) :
    List Project → List String → Run ε
  | [], calls =>
    { outcome := Outcome.returned none (some (doesNotExist projectName)), detailCalls := calls }
  | p :: projects, calls =>
    match CloudProjectInfoByID c p.ID with
    | (_, some err) =>
      { outcome := Outcome.returned none (some err), detailCalls := calls ++ [p.ID] }
    | (none, none) =>
      { outcome := Outcome.nilDereference, detailCalls := calls ++ [p.ID] }
    | (some project, none) =>
      if project.Name = projectName then
        { outcome := Outcome.returned (some project) none, detailCalls := calls ++ [p.ID] }
      else
        nameLoop c projectName projects (calls ++ [p.ID])

/-- The function `CloudProjectInfoByName` (cloud.go lines 168-196). -/
def CloudProjectInfoByName {ε : Type} (c : Client ε) (projectName : String) : Run ε :=
  match CloudProjectsList c with
  | Except.error err => { outcome := Outcome.returned none (some err), detailCalls := [] }
  | Except.ok projects =>
    match idLoop projectName projects with
    | some p =>
      { outcome := Outcome.returned (CloudProjectInfoByID c p.ID).1 (CloudProjectInfoByID c p.ID).2,
        detailCalls := [p.ID] }
    | none => nameLoop c projectName projects []

/-- The function `CloudProjectImagesList` (cloud.go lines 372-382). -/
def CloudProjectImagesList {ε : Type} (c : Client ε) (projectID region : String) :
    List Image × Option ε :=
  let path :=
    if region = "" then
      "/cloud/project/" ++ c.QueryEscape projectID ++ "/image"
    else
      "/cloud/project/" ++ c.QueryEscape projectID ++ "/image?region=" ++ c.QueryEscape region
  c.getImages path

/-- The function `CloudProjectSnapshotsList` (cloud.go lines 418-428). -/
def CloudProjectSnapshotsList {ε : Type} (c : Client ε) (projectID region : String) :
    List Image × Option ε :=
  let path :=
    if region = "" then
      "/cloud/project/" ++ c.QueryEscape projectID ++ "/snapshot"
    else
      "/cloud/project/" ++ c.QueryEscape projectID ++ "/snapshot?region=" ++ c.QueryEscape region
  c.getImages path

/-- The inner loop of `CloudProjectImagesSearch` (lines 399-412) for one image:
each `continue` goes on with the next term. -/
def termsLoop (img : Image) : List String → List Image → List Image
  | [], res => res
  | t :: terms, res =>
    if strings.Contains img.ID t then termsLoop img terms (res ++ [img])
    else if strings.Contains img.Name t then termsLoop img terms (res ++ [img])
    else if strings.Contains img.OS t then termsLoop img terms (res ++ [img])
    else termsLoop img terms res

/-- The outer loop of `CloudProjectImagesSearch` (lines 398-413). -/
def imagesLoop (terms : List String) : List Image → List Image → List Image
  | [], res => res
  | img :: images, res => imagesLoop terms images (termsLoop img terms res)

/-- The function `CloudProjectImagesSearch` (cloud.go lines 385-415). -/
def CloudProjectImagesSearch {ε : Type} (c : Client ε) (projectID region : String)
    (terms : List String) : Except ε (List Image) :=
  match CloudProjectImagesList c projectID region with
  | (_, some err) => Except.error err
  | (images, none) =>
    match CloudProjectSnapshotsList c projectID region with
    | (_, some err) => Except.error err
    | (snapshots, none) => Except.ok (imagesLoop terms (images ++ snapshots) [])

/-- The term `t` is a substring of the ID, the Name or the OS of `img`. -/
def termMatches (img : Image) (t : String) : Bool :=
  strings.Contains img.ID t || strings.Contains img.Name t || strings.Contains img.OS t

/-- A project with the given id and name. -/
def project (id name : String) : Project :=
  { Name := name, ID := id, Unleash := false, CreationDate := "2017-01-01", OrderID := 0,
    Status := "ok" }

/-- An image with the given id, name and OS. -/
def image (id name os : String) : Image :=
  { Region := "GRA1", Name := name, ID := id, OS := os, CreationDate := "", Status := "active",
    MinDisk := 0, Visibility := "public", Size := 0, MinRAM := 0, User := "admin" }

/-- A client for three projects p1, p2, p3 named "p2", "web", "web", with two
images and one snapshot.  The list call fails with `listErr` when that is not
nil; the detail call for project `bad` fails with "timeout". -/
def sampleClient (listErr : Option String) (bad : String) : Client String where
  QueryEscape := fun s => s
  getIDs := fun _ => (["p1", "p2", "p3"], listErr)
  getProject := fun path =>
    if path = "/cloud/project/" ++ bad then (some (project "" ""), some "timeout")
    else if path = "/cloud/project/p1" then (some (project "p1" "p2"), none)
    else if path = "/cloud/project/p2" then (some (project "p2" "web"), none)
    else (some (project "p3" "web"), none)
  getImages := fun path =>
    if path = "/cloud/project/p1/image" then
      ([image "i1" "Debian 8" "linux", image "i2" "Windows 10" "windows"], none)
    else
      ([image "s1" "debian-snap" "linux"], none)

/-- A client for two projects p1 and p2.  The detail call for p1 is answered with
the JSON body `null`: `Get` decodes it into a nil `*Project` and returns a nil
error.  The detail call for p2 gives a project named "web". -/
def nullClient : Client String where
  QueryEscape := fun s => s
  getIDs := fun _ => (["p1", "p2"], none)
  getProject := fun path =>
    if path = "/cloud/project/p1" then (none, none)
    else (some (project "p2" "web"), none)
  getImages := fun _ => ([], none)

end Cloud

/-! ## Auxiliary facts on lists -/

theorem perm_cons_eraseIdx {α : Type} :
    ∀ (l : List α) (k : Nat) (w : α), l[k]? = some w → l.Perm (w :: l.eraseIdx k)
  | [], k, w, h => by simp at h
  | a :: l, 0, w, h => by
    simp at h
    subst h
    simp
  | a :: l, k + 1, w, h => by
    simp at h
    have ih := perm_cons_eraseIdx l k w h
    simp only [List.eraseIdx_cons_succ]
    exact (List.Perm.cons a ih).trans (List.Perm.swap w a _)

theorem length_eraseIdx_of_getElem? {α : Type} (l : List α) (k : Nat) (w : α)
    (h : l[k]? = some w) : (l.eraseIdx k).length + 1 = l.length := by
  have := (perm_cons_eraseIdx l k w h).length_eq
  simp at this
  omega

theorem getElem?_mod_length {α : Type} (l : List α) (n : Nat) (h : l ≠ []) :
    ∃ w, l[n % l.length]? = some w := by
  have hpos : 0 < l.length := List.length_pos.mpr h
  have hlt : n % l.length < l.length := Nat.mod_lt _ hpos
  exact ⟨l[n % l.length], List.getElem?_eq_getElem hlt⟩

theorem exists_first {α : Type} (p : α → Prop) :
    ∀ (l : List α), (∃ x ∈ l, p x) →
      ∃ pre w post, l = pre ++ w :: post ∧ (∀ x ∈ pre, ¬ p x) ∧ p w
  | [], h => by simp at h
  | a :: l, h => by
    by_cases ha : p a
    · exact ⟨[], a, l, by simp, by simp, ha⟩
    · have h2 : ∃ x ∈ l, p x := by
        obtain ⟨x, hx, hpx⟩ := h
        rcases List.mem_cons.mp hx with rfl | hx
        · exact absurd hpx ha
        · exact ⟨x, hx, hpx⟩
      obtain ⟨pre, w, post, hl, hpre, hw⟩ := exists_first p l h2
      refine ⟨a :: pre, w, post, by simp [hl], ?_, hw⟩
      intro x hx
      rcases List.mem_cons.mp hx with rfl | hx
      · exact ha
      · exact hpre x hx

theorem exists_getElem?_of_perm_cons {α : Type} (l : List α) (w : α) (σ : List α)
    (h : l.Perm (w :: σ)) : ∃ k, k < l.length ∧ l[k]? = some w ∧ (l.eraseIdx k).Perm σ := by
  have hmem : w ∈ l := h.mem_iff.mpr (List.mem_cons_self _ _)
  obtain ⟨k, hk, hkw⟩ := List.getElem_of_mem hmem
  have hget : l[k]? = some w := by
    rw [List.getElem?_eq_getElem hk, hkw]
  refine ⟨k, hk, hget, ?_⟩
  exact ((perm_cons_eraseIdx l k w hget).symm.trans h).cons_inv

namespace Cart

/-! ### Auxiliary facts on the collecting loop -/

theorem arrival_perm {ρ ε : Type} (select : Nat → Nat) :
    ∀ (n i : Nat) (u : List (Worker ρ ε)), u.length = n → (arrival select n i u).Perm u
  | 0, i, u, h => by
    have : u = [] := List.length_eq_zero.mp h
    subst this
    simp [arrival]
  | n + 1, i, u, h => by
    have hne : u ≠ [] := by
      intro hu
      subst hu
      simp at h
    obtain ⟨w, hw⟩ := getElem?_mod_length u (select i) hne
    have hlen := length_eraseIdx_of_getElem? u _ w hw
    have ih := arrival_perm select n (i + 1) (u.eraseIdx (select i % u.length)) (by omega)
    simp only [arrival, hw]
    exact (List.Perm.cons w ih).trans (perm_cons_eraseIdx u _ w hw).symm

theorem arrival_congr {ρ ε : Type} (s₁ s₂ : Nat → Nat) :
    ∀ (n i : Nat) (u : List (Worker ρ ε)), (∀ j, i ≤ j → s₁ j = s₂ j) →
      arrival s₁ n i u = arrival s₂ n i u
  | 0, _, _, _ => rfl
  | n + 1, i, u, h => by
    have ih := arrival_congr s₁ s₂ n (i + 1) (u.eraseIdx (s₂ i % u.length))
      (fun j hj => h j (by omega))
    simp only [arrival, h i (Nat.le_refl i), ih]

/-- Every order of the unreceived sends is the order of arrival under some
scheduler: the schedulers stand for all the orders in which the results can
reach the loop. -/
theorem arrival_surjective {ρ ε : Type} :
    ∀ (σ u : List (Worker ρ ε)) (i : Nat), u.Perm σ →
      ∃ select : Nat → Nat, arrival select u.length i u = σ
  | [], u, i, h => by
    have : u = [] := List.Perm.eq_nil h
    subst this
    exact ⟨fun _ => 0, rfl⟩
  | w :: σ, u, i, h => by
    obtain ⟨k, hk, hget, hperm⟩ := exists_getElem?_of_perm_cons u w σ h
    have hlen := length_eraseIdx_of_getElem? u k w hget
    obtain ⟨s, hs⟩ := arrival_surjective σ (u.eraseIdx k) (i + 1) hperm
    refine ⟨fun j => if j = i then k else s j, ?_⟩
    have hmod : k % u.length = k := Nat.mod_eq_of_lt hk
    have hcongr := arrival_congr (fun j => if j = i then k else s j) s (u.eraseIdx k).length
      (i + 1) (u.eraseIdx k) (fun j hj => by
        have : j ≠ i := by omega
        simp [this])
    rw [← hlen]
    simp only [arrival, if_true, hmod, hget]
    rw [hcongr, hs]

theorem collect_of_no_err {ρ ε : Type} (check : Option ε → Control) (select : Nat → Nat) :
    ∀ (n i : Nat) (acc : List (OrderCartItem ρ)) (u : List (Worker ρ ε)), u.length = n →
      (∀ w ∈ u, w.send.err? = none) →
      collect check select n { i := i, itemsComplete := acc, unreceived := u } =
        Result.returned (acc ++ (arrival select n i u).filterMap (fun w => w.send.item?))
  | 0, i, acc, u, _, _ => by simp [collect, arrival]
  | n + 1, i, acc, u, h, hok => by
    have hne : u ≠ [] := by
      intro hu
      subst hu
      simp at h
    obtain ⟨w, hw⟩ := getElem?_mod_length u (select i) hne
    have hlen := length_eraseIdx_of_getElem? u _ w hw
    have hwmem : w ∈ u := (perm_cons_eraseIdx u _ w hw).mem_iff.mpr (List.mem_cons_self _ _)
    have hrest : ∀ x ∈ u.eraseIdx (select i % u.length), x.send.err? = none :=
      fun x hx => hok x (List.mem_of_mem_eraseIdx hx)
    have hwok := hok w hwmem
    cases hs : w.send with
    | errChan err => simp [hs, Send.err?] at hwok
    | itemsChan item =>
      simp only [collect, arrival, hw, hs]
      rw [collect_of_no_err check select n (i + 1) (acc ++ [item]) _ (by omega) hrest]
      simp [List.filterMap_cons, hs, Send.item?]

theorem collect_first_err {ρ ε : Type} (select : Nat → Nat) :
    ∀ (pre : List (Worker ρ ε)) (n i : Nat) (acc : List (OrderCartItem ρ))
      (u : List (Worker ρ ε)) (w : Worker ρ ε) (post : List (Worker ρ ε)) (e : ε),
      u.length = n → arrival select n i u = pre ++ w :: post →
      (∀ x ∈ pre, x.send.err? = none) → w.send = Send.errChan e →
      ∃ rest, collect Check select n { i := i, itemsComplete := acc, unreceived := u } =
          Result.failed e { i := i + pre.length,
                            itemsComplete := acc ++ pre.filterMap (fun x => x.send.item?),
                            unreceived := rest } ∧
        rest.Perm post
  | pre, 0, i, acc, u, w, post, e, _, harr, _, _ => by simp [arrival] at harr
  | [], n + 1, i, acc, u, w, post, e, h, harr, _, hw => by
    have hne : u ≠ [] := by
      intro hu
      subst hu
      simp at h
    obtain ⟨x, hx⟩ := getElem?_mod_length u (select i) hne
    have hlen := length_eraseIdx_of_getElem? u _ x hx
    simp only [arrival, hx, List.nil_append, List.cons.injEq] at harr
    obtain ⟨rfl, hpost⟩ := harr
    refine ⟨u.eraseIdx (select i % u.length), ?_, ?_⟩
    · simp [collect, hx, hw, Check]
    · rw [← hpost]
      exact (arrival_perm select n (i + 1) _ (by omega)).symm
  | p :: pre, n + 1, i, acc, u, w, post, e, h, harr, hpre, hw => by
    have hne : u ≠ [] := by
      intro hu
      subst hu
      simp at h
    obtain ⟨x, hx⟩ := getElem?_mod_length u (select i) hne
    have hlen := length_eraseIdx_of_getElem? u _ x hx
    simp only [arrival, hx, List.cons_append, List.cons.injEq] at harr
    obtain ⟨rfl, htail⟩ := harr
    have hxok := hpre x (List.mem_cons_self _ _)
    cases hs : x.send with
    | errChan err => simp [hs, Send.err?] at hxok
    | itemsChan item =>
      obtain ⟨rest, hrun, hperm⟩ := collect_first_err select pre n (i + 1) (acc ++ [item])
        (u.eraseIdx (select i % u.length)) w post e (by omega) htail
        (fun y hy => hpre y (List.mem_cons_of_mem _ hy)) hw
      refine ⟨rest, ?_, hperm⟩
      simp only [collect, hx, hs]
      rw [hrun]
      simp [List.filterMap_cons, hs, Send.item?]
      omega

/-- The collecting loop never waits on an empty set of workers: as many sends are
pending as iterations remain, whatever `common.Check` does. -/
theorem collect_not_stuck {ρ ε : Type} (check : Option ε → Control) (select : Nat → Nat) :
    ∀ (n : Nat) (s : LoopState ρ ε), s.unreceived.length = n →
      ∀ t, collect check select n s ≠ Result.stuck t
  | 0, s, _, t => by simp [collect]
  | n + 1, s, h, t => by
    have hne : s.unreceived ≠ [] := by
      intro hu
      rw [hu] at h
      simp at h
    obtain ⟨w, hw⟩ := getElem?_mod_length s.unreceived (select s.i) hne
    have hlen := length_eraseIdx_of_getElem? s.unreceived _ w hw
    cases hs : w.send with
    | itemsChan item =>
      simp only [collect, hw, hs]
      exact collect_not_stuck check select n _ (by simp only; omega) t
    | errChan err =>
      cases hc : check (some err) with
      | resume =>
        simp only [collect, hw, hs, hc]
        exact collect_not_stuck check select n _ (by simp only; omega) t
      | exit => simp [collect, hw, hs, hc]

/-- The function `getDetailledItemList` never blocks for ever in its `select`. -/
theorem getDetailledItemList_not_stuck {ρ ε : Type} (check : Option ε → Control)
    (info : String → Int → Except ε (OrderCartItem ρ)) (cartID : String)
    (select : Nat → Nat) (items : List (OrderCartItem ρ)) (t : LoopState ρ ε) :
    getDetailledItemList check info cartID select items ≠ Result.stuck t :=
  collect_not_stuck check select items.length _ (by simp [startWorkers]) t

theorem worker_item? {ρ ε : Type} (info : String → Int → Except ε (OrderCartItem ρ))
    (cartID : String) (it : OrderCartItem ρ) :
    (worker info cartID it).send.item? = (info cartID it.ItemID).toOption := by
  unfold worker
  cases info cartID it.ItemID <;> rfl

theorem worker_err {ρ ε : Type} (info : String → Int → Except ε (OrderCartItem ρ))
    (cartID : String) (it : OrderCartItem ρ) (e : ε) :
    (worker info cartID it).send = Send.errChan e ↔ info cartID it.ItemID = Except.error e := by
  unfold worker
  cases info cartID it.ItemID <;> simp

theorem worker_err?_none {ρ ε : Type} (info : String → Int → Except ε (OrderCartItem ρ))
    (cartID : String) (it : OrderCartItem ρ) (d : OrderCartItem ρ)
    (h : info cartID it.ItemID = Except.ok d) :
    (worker info cartID it).send.err? = none := by
  unfold worker
  rw [h]
  rfl

/-- With the modelled `Check`, a call in which some fetch fails ends on the first
failure in arrival order, the loop having received only what arrived before. -/
theorem getDetailledItemList_first_failure {ρ ε : Type}
    (info : String → Int → Except ε (OrderCartItem ρ)) (cartID : String)
    (select : Nat → Nat) (items : List (OrderCartItem ρ))
    (h : ∃ it ∈ items, ∃ e, info cartID it.ItemID = Except.error e) :
    ∃ pre w post e rest,
      arrival select items.length 0 (startWorkers info cartID items) = pre ++ w :: post ∧
      (∀ x ∈ pre, x.send.err? = none) ∧ w.send = Send.errChan e ∧
      getDetailledItemList Check info cartID select items =
        Result.failed e { i := pre.length,
                          itemsComplete := pre.filterMap (fun x => x.send.item?),
                          unreceived := rest } ∧
      rest.Perm post := by
  have hlen : (startWorkers info cartID items).length = items.length := by
    simp [startWorkers]
  have hperm := arrival_perm select items.length 0 (startWorkers info cartID items) hlen
  have hex : ∃ x ∈ arrival select items.length 0 (startWorkers info cartID items),
      x.send.err? ≠ none := by
    obtain ⟨it, hit, e, he⟩ := h
    refine ⟨worker info cartID it, hperm.mem_iff.mpr ?_, ?_⟩
    · exact List.mem_map.mpr ⟨it, hit, rfl⟩
    · rw [(worker_err info cartID it e).mpr he]
      simp [Send.err?]
  obtain ⟨pre, w, post, harr, hpre, hw⟩ := exists_first (fun x => x.send.err? ≠ none) _ hex
  have hpre2 : ∀ x ∈ pre, x.send.err? = none := fun x hx => not_not.mp (hpre x hx)
  cases hs : w.send with
  | itemsChan d => simp [hs, Send.err?] at hw
  | errChan e =>
    obtain ⟨rest, hrun, hrest⟩ := collect_first_err select pre items.length 0 []
      (startWorkers info cartID items) w post e hlen harr hpre2 hs
    refine ⟨pre, w, post, e, rest, harr, hpre2, hs, ?_, hrest⟩
    unfold getDetailledItemList
    rw [hrun]
    simp

/-- C1: when every `OrderCartItemInfo` call succeeds (the fetch of the k-th item
giving the k-th element of `details`), then whatever `common.Check` does and in
whatever order the workers are received, `getDetailledItemList` starts one worker
per item, returns, and the list it returns has as many elements as `items` and is
a permutation of `details`: nothing lost, nothing twice, duplicates kept. -/
theorem getDetailledItemList_complete {ρ ε : Type} (check : Option ε → Control)
    (info : String → Int → Except ε (OrderCartItem ρ)) (cartID : String)
    (select : Nat → Nat) (items details : List (OrderCartItem ρ))
    (h : items.map (fun it => info cartID it.ItemID) = details.map Except.ok) :
    (startWorkers info cartID items).map (fun w => w.call) = items.map (fun it => it.ItemID) ∧
    ∃ res, getDetailledItemList check info cartID select items = Result.returned res ∧
      res.length = items.length ∧ res.Perm details := by
  have hlen : (startWorkers info cartID items).length = items.length := by
    simp [startWorkers]
  have hdl : details.length = items.length := by
    have := congrArg List.length h
    simpa using this.symm
  have hok : ∀ w ∈ startWorkers info cartID items, w.send.err? = none := by
    intro w hw
    obtain ⟨it, hit, rfl⟩ := List.mem_map.mp hw
    have hmem : info cartID it.ItemID ∈ details.map Except.ok := by
      rw [← h]
      exact List.mem_map.mpr ⟨it, hit, rfl⟩
    obtain ⟨d, _, hd⟩ := List.mem_map.mp hmem
    exact worker_err?_none info cartID it d hd.symm
  have hdet : (startWorkers info cartID items).filterMap (fun w => w.send.item?) = details := by
    have h1 : (startWorkers info cartID items).filterMap (fun w => w.send.item?) =
        (items.map (fun it => info cartID it.ItemID)).filterMap Except.toOption := by
      simp only [startWorkers, List.filterMap_map]
      congr 1
      funext it
      exact worker_item? info cartID it
    rw [h1, h, List.filterMap_map]
    have h2 : (Except.toOption ∘ (Except.ok : OrderCartItem ρ → Except ε (OrderCartItem ρ))) =
        some := by
      funext d
      rfl
    rw [h2, List.filterMap_some]
  have hperm := arrival_perm select items.length 0 (startWorkers info cartID items) hlen
  refine ⟨?_, (arrival select items.length 0 (startWorkers info cartID items)).filterMap
    (fun w => w.send.item?), ?_, ?_, ?_⟩
  · simp only [startWorkers, List.map_map]
    congr 1
    funext it
    simp only [Function.comp, worker]
    cases info cartID it.ItemID <;> rfl
  · unfold getDetailledItemList
    rw [collect_of_no_err check select items.length 0 [] _ hlen hok]
    simp
  · have := (hperm.filterMap (fun w => w.send.item?)).length_eq
    rw [this, hdet, hdl]
  · have := hperm.filterMap (fun w => w.send.item?)
    rw [hdet] at this
    exact this

/-- Witness of C1: three items, two of them the same, fetched last-started first. -/
theorem getDetailledItemList_complete_witness :
    [ref 7, ref 4, ref 7].map (fun it => infoAll "cart" it.ItemID) =
        [detail 7, detail 4, detail 7].map Except.ok ∧
    ((startWorkers infoAll "cart" [ref 7, ref 4, ref 7]).map (fun w => w.call) =
        [ref 7, ref 4, ref 7].map (fun it => it.ItemID) ∧
      ∃ res, getDetailledItemList Check infoAll "cart" (fun i => 2 - i) [ref 7, ref 4, ref 7] =
          Result.returned res ∧
        res.length = [ref 7, ref 4, ref 7].length ∧ res.Perm [detail 7, detail 4, detail 7]) :=
  ⟨rfl, getDetailledItemList_complete Check infoAll "cart" (fun i => 2 - i)
    [ref 7, ref 4, ref 7] [detail 7, detail 4, detail 7] rfl⟩

/-- C6: for the empty list `getDetailledItemList` returns the empty list without
failing, whatever `common.Check`, the client and the scheduler do; no worker is
started, so `OrderCartItemInfo` is called for no item. -/
theorem getDetailledItemList_nil {ρ ε : Type} (check : Option ε → Control)
    (info : String → Int → Except ε (OrderCartItem ρ)) (cartID : String)
    (select : Nat → Nat) :
    getDetailledItemList check info cartID select [] = Result.returned [] ∧
    (Result.returned [] : Result ρ ε).failure? = none ∧
    startWorkers info cartID [] = [] ∧
    (startWorkers info cartID []).map (fun w => w.call) = [] :=
  ⟨rfl, rfl, rfl, rfl⟩

/-- C3, as stated, fails: the fetches of items 1 (A) and 3 (C) fail with different
errors; the command ends on the error of A alone, and the failure of C, whose
worker is still unreceived, is in no way part of what is reported. -/
theorem getDetailledItemList_reports_one_failure :
    infoAC "cart" 1 = Except.error "A failed" ∧
    infoAC "cart" 3 = Except.error "C failed" ∧
    getDetailledItemList Check infoAC "cart" inOrder [ref 1, ref 2, ref 3] =
      Result.failed "A failed"
        { i := 0, itemsComplete := [],
          unreceived := [{ call := 2, send := Send.itemsChan (detail 2) },
                         { call := 3, send := Send.errChan "C failed" }] } ∧
    (getDetailledItemList Check infoAC "cart" inOrder [ref 1, ref 2, ref 3]).failure? =
      some "A failed" := by
  refine ⟨rfl, rfl, ?_, ?_⟩ <;> decide

/-- C3, amended: when one or more fetches fail, the command ends on one error
only, the first failure in the order of arrival: every result that arrived
before it was a success. -/
theorem getDetailledItemList_reports_first_failure {ρ ε : Type}
    (info : String → Int → Except ε (OrderCartItem ρ)) (cartID : String)
    (select : Nat → Nat) (items : List (OrderCartItem ρ))
    (h : ∃ it ∈ items, ∃ e, info cartID it.ItemID = Except.error e) :
    ∃ pre w post e,
      arrival select items.length 0 (startWorkers info cartID items) = pre ++ w :: post ∧
      (∀ x ∈ pre, ∃ d, x.send = Send.itemsChan d) ∧ w.send = Send.errChan e ∧
      (getDetailledItemList Check info cartID select items).failure? = some e := by
  obtain ⟨pre, w, post, e, rest, harr, hpre, hw, hrun, _⟩ :=
    getDetailledItemList_first_failure info cartID select items h
  refine ⟨pre, w, post, e, harr, ?_, hw, ?_⟩
  · intro x hx
    have := hpre x hx
    cases hs : x.send with
    | errChan err => simp [hs, Send.err?] at this
    | itemsChan d => exact ⟨d, rfl⟩
  · rw [hrun]
    rfl

/-- Witness of C3 amended: items A, B, C of which A and C fail. -/
theorem getDetailledItemList_reports_first_failure_witness :
    (∃ it ∈ [ref 1, ref 2, ref 3], ∃ e, infoAC "cart" it.ItemID = Except.error e) ∧
    ∃ pre w post e,
      arrival inOrder [ref 1, ref 2, ref 3].length 0
          (startWorkers infoAC "cart" [ref 1, ref 2, ref 3]) = pre ++ w :: post ∧
      (∀ x ∈ pre, ∃ d, x.send = Send.itemsChan d) ∧ w.send = Send.errChan e ∧
      (getDetailledItemList Check infoAC "cart" inOrder [ref 1, ref 2, ref 3]).failure? =
        some e :=
  ⟨⟨ref 1, by simp, "A failed", rfl⟩,
   getDetailledItemList_reports_first_failure infoAC "cart" inOrder [ref 1, ref 2, ref 3]
     ⟨ref 1, by simp, "A failed", rfl⟩⟩

/-- C4: when at least one fetch fails, `getDetailledItemList` returns no list at
all, so in particular no list of fewer than N items: the command ends inside it,
and `listItems --withDetails` prints nothing. -/
theorem getDetailledItemList_never_partial {ρ ε : Type}
    (info : String → Int → Except ε (OrderCartItem ρ)) (cartID : String)
    (select : Nat → Nat) (items : List (OrderCartItem ρ))
    (h : ∃ it ∈ items, ∃ e, info cartID it.ItemID = Except.error e) :
    (∀ res, getDetailledItemList Check info cartID select items ≠ Result.returned res) ∧
    (∀ out, CmdCartListItems none (fun _ => (items, none)) info cartID true select ≠
      CmdResult.output out) := by
  obtain ⟨pre, w, post, e, rest, _, _, _, hrun, _⟩ :=
    getDetailledItemList_first_failure info cartID select items h
  constructor
  · intro res hres
    rw [hrun] at hres
    exact Result.noConfusion hres
  · intro out hout
    simp only [CmdCartListItems, checkThen, Check, if_true, hrun] at hout
    exact CmdResult.noConfusion hout

/-- Witness of C4: the five items of which the third fails, received last-started
first. -/
theorem getDetailledItemList_never_partial_witness :
    (∃ it ∈ [ref 1, ref 2, ref 3, ref 4, ref 5], ∃ e, infoBut 3 "cart" it.ItemID = Except.error e) ∧
    (∀ res, getDetailledItemList Check (infoBut 3) "cart" (fun i => 4 - i)
        [ref 1, ref 2, ref 3, ref 4, ref 5] ≠ Result.returned res) ∧
    (∀ out, CmdCartListItems none (fun _ => ([ref 1, ref 2, ref 3, ref 4, ref 5], none))
        (infoBut 3) "cart" true (fun i => 4 - i) ≠ CmdResult.output out) :=
  ⟨⟨ref 3, by simp, "not found", rfl⟩,
   getDetailledItemList_never_partial (infoBut 3) "cart" (fun i => 4 - i)
     [ref 1, ref 2, ref 3, ref 4, ref 5] ⟨ref 3, by simp, "not found", rfl⟩⟩

/-- C5, as stated, fails: whether the fetch of item 3 or the fetch of item 2 is
the one that fails with "not found", the command ends on the same error value,
"not found": the value is the cause alone and names no item. -/
theorem getDetailledItemList_failure_has_no_ItemID :
    (getDetailledItemList Check (infoBut 3) "cart" inOrder [ref 1, ref 2, ref 3]).failure? =
      some "not found" ∧
    (getDetailledItemList Check (infoBut 2) "cart" inOrder [ref 1, ref 2, ref 3]).failure? =
      some "not found" ∧
    ([ref 1, ref 2, ref 3].filter
        (fun it => (infoBut 3 "cart" it.ItemID).toOption.isNone)).map (fun it => it.ItemID) = [3] ∧
    ([ref 1, ref 2, ref 3].filter
        (fun it => (infoBut 2 "cart" it.ItemID).toOption.isNone)).map (fun it => it.ItemID) = [2] := by
  refine ⟨?_, ?_, ?_, ?_⟩ <;> decide

/-- C5, amended: when at least one fetch fails the call fails, and the error on
which the command ends is exactly the error `OrderCartItemInfo` returned for one
of the failing items of the list. -/
theorem getDetailledItemList_failure_is_a_cause {ρ ε : Type}
    (info : String → Int → Except ε (OrderCartItem ρ)) (cartID : String)
    (select : Nat → Nat) (items : List (OrderCartItem ρ))
    (h : ∃ it ∈ items, ∃ e, info cartID it.ItemID = Except.error e) :
    ∃ e s, getDetailledItemList Check info cartID select items = Result.failed e s ∧
      ∃ it ∈ items, info cartID it.ItemID = Except.error e := by
  obtain ⟨pre, w, post, e, rest, harr, _, hw, hrun, _⟩ :=
    getDetailledItemList_first_failure info cartID select items h
  have hlen : (startWorkers info cartID items).length = items.length := by
    simp [startWorkers]
  have hperm := arrival_perm select items.length 0 (startWorkers info cartID items) hlen
  have hmem : w ∈ startWorkers info cartID items := by
    apply hperm.mem_iff.mp
    rw [harr]
    simp
  obtain ⟨it, hit, rfl⟩ := List.mem_map.mp hmem
  exact ⟨e, _, hrun, it, hit, (worker_err info cartID it e).mp hw⟩

/-- Witness of C5 amended: the scenario of the spec, items 1 to 5 of which the
third fails with "not found". -/
theorem getDetailledItemList_failure_is_a_cause_witness :
    (∃ it ∈ [ref 1, ref 2, ref 3, ref 4, ref 5], ∃ e, infoBut 3 "cart" it.ItemID = Except.error e) ∧
    ∃ e s, getDetailledItemList Check (infoBut 3) "cart" (fun i => i)
        [ref 1, ref 2, ref 3, ref 4, ref 5] = Result.failed e s ∧
      ∃ it ∈ [ref 1, ref 2, ref 3, ref 4, ref 5], infoBut 3 "cart" it.ItemID = Except.error e :=
  ⟨⟨ref 3, by simp, "not found", rfl⟩,
   getDetailledItemList_failure_is_a_cause (infoBut 3) "cart" (fun i => i)
     [ref 1, ref 2, ref 3, ref 4, ref 5] ⟨ref 3, by simp, "not found", rfl⟩⟩

end Cart

namespace Cloud

/-! ### Auxiliary facts on the loops of cloud.go -/

theorem idLoop_of_mem (projectName : String) :
    ∀ (projects : List Project), (∃ p ∈ projects, p.ID = projectName) →
      ∃ p, idLoop projectName projects = some p ∧ p.ID = projectName
  | [], h => by simp at h
  | q :: projects, h => by
    by_cases hq : q.ID = projectName
    · exact ⟨q, by simp [idLoop, hq], hq⟩
    · have h2 : ∃ p ∈ projects, p.ID = projectName := by
        obtain ⟨p, hp, hpid⟩ := h
        rcases List.mem_cons.mp hp with rfl | hp
        · exact absurd hpid hq
        · exact ⟨p, hp, hpid⟩
      obtain ⟨p, hp, hpid⟩ := idLoop_of_mem projectName projects h2
      exact ⟨p, by simp [idLoop, hq, hp], hpid⟩

theorem idLoop_of_not_mem (projectName : String) :
    ∀ (projects : List Project), (∀ p ∈ projects, p.ID ≠ projectName) →
      idLoop projectName projects = none
  | [], _ => rfl
  | q :: projects, h => by
    have hq : q.ID ≠ projectName := h q (List.mem_cons_self _ _)
    simp only [idLoop, hq, if_false]
    exact idLoop_of_not_mem projectName projects (fun p hp => h p (List.mem_cons_of_mem _ hp))

theorem nameLoop_skip {ε : Type} (c : Client ε) (projectName : String) :
    ∀ (pre rest : List Project) (calls : List String),
      (∀ q ∈ pre, ∃ d, CloudProjectInfoByID c q.ID = (some d, none) ∧ d.Name ≠ projectName) →
      nameLoop c projectName (pre ++ rest) calls =
        nameLoop c projectName rest (calls ++ pre.map (fun q => q.ID))
  | [], rest, calls, _ => by simp
  | q :: pre, rest, calls, h => by
    obtain ⟨d, hd, hne⟩ := h q (List.mem_cons_self _ _)
    have ih := nameLoop_skip c projectName pre rest (calls ++ [q.ID])
      (fun x hx => h x (List.mem_cons_of_mem _ hx))
    rw [List.cons_append, nameLoop]
    simp only [hd, hne, if_false]
    rw [ih]
    simp

/-- A detail call that gives a nil project with a nil error, every call before it
having given a project of another name, ends the second loop in a nil
dereference. -/
theorem nameLoop_nilDereference {ε : Type} (c : Client ε) (projectName : String)
    (pre : List Project) (p : Project) (post : List Project)
    (hpre : ∀ q ∈ pre, ∃ d, CloudProjectInfoByID c q.ID = (some d, none) ∧
      d.Name ≠ projectName)
    (hp : CloudProjectInfoByID c p.ID = (none, none)) :
    (nameLoop c projectName (pre ++ p :: post) []).outcome = Outcome.nilDereference := by
  rw [nameLoop_skip c projectName pre (p :: post) [] hpre]
  simp [nameLoop, hp]

theorem termsLoop_eq (img : Image) :
    ∀ (terms : List String) (res : List Image),
      termsLoop img terms res = res ++ List.replicate (terms.countP (termMatches img)) img
  | [], res => by simp [termsLoop]
  | t :: terms, res => by
    by_cases h1 : strings.Contains img.ID t = true
    · simp [termsLoop, h1, termsLoop_eq img terms, termMatches, List.countP_cons,
        List.replicate_succ]
    · by_cases h2 : strings.Contains img.Name t = true
      · simp [termsLoop, h1, h2, termsLoop_eq img terms, termMatches, List.countP_cons,
          List.replicate_succ]
      · by_cases h3 : strings.Contains img.OS t = true
        · simp [termsLoop, h1, h2, h3, termsLoop_eq img terms, termMatches, List.countP_cons,
            List.replicate_succ]
        · simp [termsLoop, h1, h2, h3, termsLoop_eq img terms, termMatches, List.countP_cons]

theorem imagesLoop_eq (terms : List String) :
    ∀ (images res : List Image),
      imagesLoop terms images res =
        res ++ images.flatMap (fun img => List.replicate (terms.countP (termMatches img)) img)
  | [], res => by simp [imagesLoop]
  | img :: images, res => by
    simp [imagesLoop, imagesLoop_eq terms images, termsLoop_eq]

/-- An image matched by two terms stands twice in the result. -/
theorem CloudProjectImagesSearch_repeats :
    CloudProjectImagesSearch (sampleClient none "") "p1" "" ["ebian", "linux"] =
      Except.ok [image "i1" "Debian 8" "linux", image "i1" "Debian 8" "linux",
                 image "s1" "debian-snap" "linux", image "s1" "debian-snap" "linux"] := by
  rfl

/-! ### The claims on cloud.go -/

/-- C7: when `CloudProjectsList` returns `projects` and `projectName` is the ID of
one of them, `CloudProjectInfoByName` returns the project and the error that
`CloudProjectInfoByID` returns for that ID, and that is the only detail call it
makes; no condition is put on the names of the projects, so a project whose Name
is `projectName` changes nothing. -/
theorem CloudProjectInfoByName_of_ID {ε : Type} (c : Client ε) (projects : List Project)
    (projectName : String)
    (hlist : CloudProjectsList c = Except.ok projects)
    (hmem : ∃ p ∈ projects, p.ID = projectName) :
    CloudProjectInfoByName c projectName =
      { outcome := Outcome.returned (CloudProjectInfoByID c projectName).1
          (CloudProjectInfoByID c projectName).2,
        detailCalls := [projectName] } := by
  obtain ⟨p, hp, hpid⟩ := idLoop_of_mem projectName projects hmem
  simp only [CloudProjectInfoByName, hlist, hp, hpid]

/-- Witness of C7: "p2" is the ID of the second project and the Name of the first;
the details of the second are returned and the first is never fetched. -/
theorem CloudProjectInfoByName_of_ID_witness :
    CloudProjectsList (sampleClient none "") =
        Except.ok [listed "p1", listed "p2", listed "p3"] ∧
    CloudProjectInfoByName (sampleClient none "") "p2" =
      { outcome := Outcome.returned (some (project "p2" "web")) none, detailCalls := ["p2"] } :=
  ⟨rfl, CloudProjectInfoByName_of_ID (sampleClient none "") _ "p2" rfl
    ⟨listed "p2", by simp, rfl⟩⟩

/-- C8, as stated, fails: "web" is the ID of no project of the list, every detail
call returns a nil error, and the second project has the Name "web"; but the
call for the first project gives a nil project with that nil error, and the
function ends in a nil dereference at `project.Name` after that one call: it
returns neither the details of the second project nor a "does not exist" error. -/
theorem CloudProjectInfoByName_nil_project :
    CloudProjectsList nullClient = Except.ok [listed "p1", listed "p2"] ∧
    (∀ p ∈ [listed "p1", listed "p2"], p.ID ≠ "web") ∧
    (∀ p ∈ [listed "p1", listed "p2"], (CloudProjectInfoByID nullClient p.ID).2 = none) ∧
    CloudProjectInfoByID nullClient "p1" = (none, none) ∧
    CloudProjectInfoByID nullClient "p2" = (some (project "p2" "web"), none) ∧
    CloudProjectInfoByName nullClient "web" =
      { outcome := Outcome.nilDereference, detailCalls := ["p1"] } := by
  refine ⟨rfl, by decide, by decide, rfl, rfl, by decide⟩

/-- C8, amended: a failing list call is returned as it is, with a nil project.
When the list call succeeds and `projectName` is the ID of no project of the
list, take any project `p` of the list such that every detail call before it
returned a nil error and a non-nil project with a Name other than `projectName`:
if the call for `p` returns a nil error and a non-nil project with Name
`projectName`, these details are returned with a nil error; if it returns an
error, a nil project and that error are returned.  And when every detail call
returns a nil error and a non-nil project, the result is a nil project with the
error "Project '<projectName>' does not exist on OVH cloud. To create or rename a
project, please visit <CustomerInterface>" exactly when no project has the Name
`projectName`. -/
theorem CloudProjectInfoByName_of_Name {ε : Type} (c : Client ε) (projectName : String) :
    (∀ err, CloudProjectsList c = Except.error err →
      CloudProjectInfoByName c projectName =
        { outcome := Outcome.returned none (some err), detailCalls := [] }) ∧
    (∀ projects, CloudProjectsList c = Except.ok projects →
      (∀ p ∈ projects, p.ID ≠ projectName) →
      (∀ pre p post, projects = pre ++ p :: post →
        (∀ q ∈ pre, ∃ d, CloudProjectInfoByID c q.ID = (some d, none) ∧ d.Name ≠ projectName) →
        (∀ d, CloudProjectInfoByID c p.ID = (some d, none) → d.Name = projectName →
          (CloudProjectInfoByName c projectName).outcome = Outcome.returned (some d) none) ∧
        (∀ o err, CloudProjectInfoByID c p.ID = (o, some err) →
          (CloudProjectInfoByName c projectName).outcome = Outcome.returned none (some err))) ∧
      ((∀ p ∈ projects, ∃ d, CloudProjectInfoByID c p.ID = (some d, none)) →
        ((CloudProjectInfoByName c projectName).outcome =
            Outcome.returned none (some (GoError.errorf ("Project '" ++ projectName ++
              "' does not exist on OVH cloud. To create or rename a project, please visit " ++
              "https://www.ovh.com/manager/cloud/index.html"))) ↔
          ∀ p ∈ projects, ∀ d, CloudProjectInfoByID c p.ID = (some d, none) →
            d.Name ≠ projectName))) := by
  refine ⟨?_, ?_⟩
  · intro err herr
    simp only [CloudProjectInfoByName, herr]
  · intro projects hlist hid
    have hrun : CloudProjectInfoByName c projectName = nameLoop c projectName projects [] := by
      simp only [CloudProjectInfoByName, hlist, idLoop_of_not_mem projectName projects hid]
    refine ⟨?_, ?_⟩
    · intro pre p post hsplit hpre
      have hskip := nameLoop_skip c projectName pre (p :: post) [] hpre
      rw [hrun, hsplit, hskip]
      refine ⟨?_, ?_⟩
      · intro d hd hname
        simp [nameLoop, hd, hname]
      · intro o err herr
        simp [nameLoop, herr]
    · intro hall
      rw [hrun]
      constructor
      · intro hout p hp d hd hname
        obtain ⟨pre, q, post, hsplit, hpre, hq⟩ :=
          exists_first
            (fun q => ∃ d, CloudProjectInfoByID c q.ID = (some d, none) ∧ d.Name = projectName)
            projects ⟨p, hp, d, hd, hname⟩
        obtain ⟨dq, hdq, hqname⟩ := hq
        have hpre2 : ∀ x ∈ pre, ∃ d, CloudProjectInfoByID c x.ID = (some d, none) ∧
            d.Name ≠ projectName := by
          intro x hx
          have hxmem : x ∈ projects := by
            rw [hsplit]
            exact List.mem_append_left _ hx
          obtain ⟨dx, hdx⟩ := hall x hxmem
          exact ⟨dx, hdx, fun hn => hpre x hx ⟨dx, hdx, hn⟩⟩
        rw [hsplit, nameLoop_skip c projectName pre (q :: post) [] hpre2] at hout
        simp [nameLoop, hdq, hqname] at hout
      · intro hnone
        have hpre : ∀ x ∈ projects, ∃ d, CloudProjectInfoByID c x.ID = (some d, none) ∧
            d.Name ≠ projectName := by
          intro x hx
          obtain ⟨dx, hdx⟩ := hall x hx
          exact ⟨dx, hdx, hnone x hx dx hdx⟩
        have := nameLoop_skip c projectName projects [] [] hpre
        rw [List.append_nil] at this
        rw [this]
        rfl

/-- Witness of C8 amended: the list call fails; the name "web" is first met on the second
project; the detail call of the first project fails; no project has the name. -/
theorem CloudProjectInfoByName_of_Name_witness :
    CloudProjectInfoByName (sampleClient (some "down") "") "web" =
      { outcome := Outcome.returned none (some (GoError.client "down")), detailCalls := [] } ∧
    (CloudProjectInfoByName (sampleClient none "") "web").outcome =
      Outcome.returned (some (project "p2" "web")) none ∧
    (CloudProjectInfoByName (sampleClient none "p1") "web").outcome =
      Outcome.returned none (some (GoError.client "timeout")) ∧
    (CloudProjectInfoByName (sampleClient none "") "nope").outcome =
      Outcome.returned none (some (GoError.errorf
        "Project 'nope' does not exist on OVH cloud. To create or rename a project, please visit https://www.ovh.com/manager/cloud/index.html")) :=
  ⟨(CloudProjectInfoByName_of_Name (sampleClient (some "down") "") "web").1 _ rfl,
   ((((CloudProjectInfoByName_of_Name (sampleClient none "") "web").2
      [listed "p1", listed "p2", listed "p3"] rfl (by decide)).1
      [listed "p1"] (listed "p2") [listed "p3"] rfl
      (by
        intro q hq
        rw [List.mem_singleton] at hq
        subst hq
        exact ⟨project "p1" "p2", rfl, by decide⟩)).1 (project "p2" "web") rfl rfl),
   ((((CloudProjectInfoByName_of_Name (sampleClient none "p1") "web").2
      [listed "p1", listed "p2", listed "p3"] rfl (by decide)).1
      [] (listed "p1") [listed "p2", listed "p3"] rfl
      (by simp)).2 (some (project "" "")) (GoError.client "timeout") rfl),
   (((CloudProjectInfoByName_of_Name (sampleClient none "") "nope").2
      [listed "p1", listed "p2", listed "p3"] rfl (by decide)).2
      (by
        intro p hp
        simp only [List.mem_cons, List.mem_singleton, List.not_mem_nil, or_false] at hp
        rcases hp with rfl | rfl | rfl
        · exact ⟨project "p1" "p2", rfl⟩
        · exact ⟨project "p2" "web", rfl⟩
        · exact ⟨project "p3" "web", rfl⟩)).mpr
      (by
        intro p hp d hd
        simp only [List.mem_cons, List.mem_singleton, List.not_mem_nil, or_false] at hp
        rcases hp with rfl | rfl | rfl
        · have h : (some (project "p1" "p2"), (none : Option (GoError String))) = (some d, none) :=
            hd
          simp only [Prod.mk.injEq, Option.some.injEq, and_true] at h
          subst h
          decide
        · have h : (some (project "p2" "web"), (none : Option (GoError String))) = (some d, none) :=
            hd
          simp only [Prod.mk.injEq, Option.some.injEq, and_true] at h
          subst h
          decide
        · have h : (some (project "p3" "web"), (none : Option (GoError String))) = (some d, none) :=
            hd
          simp only [Prod.mk.injEq, Option.some.injEq, and_true] at h
          subst h
          decide)⟩

/-- C9: when both list calls succeed, `CloudProjectImagesSearch` returns a list
`res` without error; an image is in `res` exactly when it is in the image list
followed by the snapshot list and some term is a substring of its ID, its Name
or its OS; `res` is that list in its order, each image standing once for every
term that matches it (not at all when none does); with no terms `res` is empty. -/
theorem CloudProjectImagesSearch_matching {ε : Type} (c : Client ε) (projectID region : String)
    (terms : List String) (images snapshots : List Image)
    (hi : CloudProjectImagesList c projectID region = (images, none))
    (hs : CloudProjectSnapshotsList c projectID region = (snapshots, none)) :
    ∃ res, CloudProjectImagesSearch c projectID region terms = Except.ok res ∧
      (∀ img, img ∈ res ↔
        img ∈ images ++ snapshots ∧
          ∃ t ∈ terms, strings.Contains img.ID t = true ∨ strings.Contains img.Name t = true ∨
            strings.Contains img.OS t = true) ∧
      res = (images ++ snapshots).flatMap
        (fun img => List.replicate (terms.countP (termMatches img)) img) ∧
      CloudProjectImagesSearch c projectID region [] = Except.ok [] := by
  have hrun : ∀ ts, CloudProjectImagesSearch c projectID region ts =
      Except.ok ((images ++ snapshots).flatMap
        (fun img => List.replicate (ts.countP (termMatches img)) img)) := by
    intro ts
    simp only [CloudProjectImagesSearch, hi, hs, imagesLoop_eq, List.nil_append]
  refine ⟨_, hrun terms, ?_, rfl, ?_⟩
  · intro img
    simp only [List.mem_flatMap, List.mem_replicate]
    constructor
    · rintro ⟨a, ha, hcount, rfl⟩
      refine ⟨ha, ?_⟩
      have hpos : 0 < terms.countP (termMatches img) := Nat.pos_of_ne_zero hcount
      obtain ⟨t, ht, hmatch⟩ := List.countP_pos_iff.mp hpos
      refine ⟨t, ht, ?_⟩
      simpa [termMatches, or_assoc] using hmatch
    · rintro ⟨hmem, t, ht, hmatch⟩
      refine ⟨img, hmem, ?_, rfl⟩
      have hpos : 0 < terms.countP (termMatches img) :=
        List.countP_pos_iff.mpr ⟨t, ht, by simpa [termMatches, or_assoc] using hmatch⟩
      omega
  · rw [hrun []]
    simp

/-- Witness of C9: two images and one snapshot searched for "ebian" and "linux". -/
theorem CloudProjectImagesSearch_matching_witness :
    CloudProjectImagesList (sampleClient none "") "p1" "" =
      ([image "i1" "Debian 8" "linux", image "i2" "Windows 10" "windows"], none) ∧
    CloudProjectSnapshotsList (sampleClient none "") "p1" "" =
      ([image "s1" "debian-snap" "linux"], none) ∧
    ∃ res, CloudProjectImagesSearch (sampleClient none "") "p1" "" ["ebian", "linux"] =
        Except.ok res ∧
      (∀ img, img ∈ res ↔
        img ∈ [image "i1" "Debian 8" "linux", image "i2" "Windows 10" "windows"] ++
            [image "s1" "debian-snap" "linux"] ∧
          ∃ t ∈ ["ebian", "linux"], strings.Contains img.ID t = true ∨
            strings.Contains img.Name t = true ∨ strings.Contains img.OS t = true) ∧
      res = ([image "i1" "Debian 8" "linux", image "i2" "Windows 10" "windows"] ++
          [image "s1" "debian-snap" "linux"]).flatMap
        (fun img => List.replicate (["ebian", "linux"].countP (termMatches img)) img) ∧
      CloudProjectImagesSearch (sampleClient none "") "p1" "" [] = Except.ok [] :=
  ⟨rfl, rfl, CloudProjectImagesSearch_matching (sampleClient none "") "p1" "" ["ebian", "linux"]
    _ _ rfl rfl⟩

end Cloud

end Ovhcli
